import Mathlib

/-!
Shallow embedding of the backend actor `src/backend/main.mo` of the
collectible-card portfolio tracker, together with theorems settling the
frozen claims about it.

Modelling conventions:
* Motoko `Float` is modelled as `ℚ` (exact arithmetic); `Float.toText`
  is modelled by `toString` on `ℚ`.
* `Principal` is modelled as `ℕ`, `Time.Time` as `ℤ`,
  `Storage.ExternalBlob` as an opaque `String` reference.
* All persistent maps are keyed by the caller, and every operation of the
  actor touches only the caller's entries, so the state is modelled per
  caller: the caller's entry of `cards` (an `Option` since `Map.get` can
  be `null`), the caller's change history (`null` and the empty list are
  observationally equal there), the caller's `backfillMarker` presence,
  and the global `nextCardId` counter.
* `AccessControl.hasPermission(state, caller, #user)` is an opaque
  predicate of the caller; it is passed to each operation as a boolean
  `auth` argument.
* `Runtime.trap` rolls the message back, so a trapped call is modelled as
  `Except.error` carrying the trap message, and a successful call as
  `Except.ok` carrying the new state.
-/

namespace CardPortfolio

abbrev CardId := Nat

abbrev Time := Int

abbrev Principal := Nat

inductive ChangeAction where
  | addCard
  | editCard
  | deleteCard
  | updateSalePrice
  | markSold
  | trade
  | revertTrade
deriving DecidableEq

inductive PaymentMethod where
  | cash
  | eth
  | essence
  | trade
deriving DecidableEq

inductive Position where
  | torwart
  | verteidiger
  | mittelfeld
  | sturm
deriving DecidableEq

inductive TransactionType where
  | forSale
  | sold
  | tradedGiven
  | tradedReceived
deriving DecidableEq

structure TradeTransaction where
  givenCards : List CardId
  receivedCards : List CardId
deriving DecidableEq

structure Card where
  id : CardId
  name : String
  rarity : String
  purchasePrice : ℚ
  discountPercent : ℚ
  paymentMethod : PaymentMethod
  salePrice : Option ℚ
  owner : Principal
  country : String
  league : String
  club : String
  age : Nat
  version : String
  season : String
  position : Position
  transactionType : TransactionType
  tradeReference : Option TradeTransaction
  purchaseDate : Option Time
  saleDate : Option Time
  notes : String
  image : Option String
deriving DecidableEq

structure UserProfile where
  name : String
  profileImage : Option String
deriving DecidableEq

structure InvestmentTotals where
  totalCashInvested : ℚ
  totalEthInvested : ℚ
deriving DecidableEq

structure PortfolioSnapshot where
  investmentTotals : InvestmentTotals
  totalInvested : ℚ
  totalBalance : ℚ
  totalReturns : ℚ
  totalReturnBalance : ℚ
  portfolioTotal : ℚ
  holdBalance : ℚ
  allCards : List Card
deriving DecidableEq

structure ChangeHistoryEntry where
  timestamp : Time
  action : ChangeAction
  cardIds : List CardId
  summary : String
deriving DecidableEq

/-- The caller's slice of the actor state: the caller's entry of the
`cards` map, the caller's change history, whether `backfillMarker`
contains the caller, and the global `nextCardId` counter. -/
structure UserState where
  cards : Option (List Card)
  history : List ChangeHistoryEntry
  backfilled : Bool
  nextCardId : Nat
deriving DecidableEq

/-- The caller's card list as the operations observe it (`cards.get`
followed by defaulting an absent entry to the empty list). -/
def cardsOf (s : UserState) : List Card :=
  s.cards.getD []

/-- `logChange` of `main.mo`: append one entry to the caller's history
(`Time.now()` is passed in as `now`). -/
def logChange (now : Time) (action : ChangeAction) (cardIds : List CardId)
    (summary : String) (s : UserState) : UserState :=
  { s with history := s.history ++ [⟨now, action, cardIds, summary⟩] }

/-- `verifyCardOwnership` of `main.mo`. -/
def verifyCardOwnership (s : UserState) (cardId : CardId) : Bool :=
  match s.cards with
  | none => false
  | some userCards =>
      (userCards.find? (fun card => decide (card.id = cardId))).isSome

/-- `addCard` of `main.mo`: allocate the next id, append a `forSale` card
with no sale price and no trade reference, log an `addCard` entry, return
the new id. -/
def addCard (auth : Bool) (now : Time) (caller : Principal)
    (name rarity : String) (purchasePrice discountPercent : ℚ)
    (paymentMethod : PaymentMethod) (country league club : String)
    (age : Nat) (version season : String) (position : Position)
    (purchaseDate : Option Time) (notes : String) (image : Option String)
    (s : UserState) : Except String (UserState × CardId) :=
  if ¬ auth then .error "Unauthorized: Only users can add cards" else
  let cardId := s.nextCardId
  let newCard : Card :=
    { id := cardId, name, rarity, purchasePrice, discountPercent,
      paymentMethod, salePrice := none, owner := caller, country, league,
      club, age, version, season, position, transactionType := .forSale,
      tradeReference := none, purchaseDate, saleDate := none, notes, image }
  let currentCards := s.cards.getD []
  let s1 : UserState :=
    { s with
      cards := some (currentCards ++ [newCard])
      nextCardId := s.nextCardId + 1 }
  .ok (logChange now .addCard [cardId] ("Added new card: " ++ name) s1, cardId)

/-- The per-card function `updateSalePrice` maps over the caller's list. -/
def updateSalePriceUpdate (cardId : CardId) (newSalePrice : ℚ)
    (card : Card) : Card :=
  if card.id = cardId then { card with salePrice := some newSalePrice }
  else card

/-- `updateSalePrice` of `main.mo`. -/
def updateSalePrice (auth : Bool) (now : Time) (cardId : CardId)
    (newSalePrice : ℚ) (s : UserState) : Except String UserState :=
  if ¬ auth then .error "Unauthorized: Only users can update cards" else
  if ¬ verifyCardOwnership s cardId then
    .error "Unauthorized: Card does not belong to caller" else
  match s.cards with
  | none => .error "Card not found"
  | some userCards =>
      let oldSalePrice :=
        userCards.foldl
          (fun acc card => if card.id = cardId then card.salePrice else acc)
          none
      let updatedCards := userCards.map (updateSalePriceUpdate cardId newSalePrice)
      let s1 := { s with cards := some updatedCards }
      match oldSalePrice with
      | none =>
          .ok (logChange now .updateSalePrice [cardId]
            ("Set sale price for card " ++ toString cardId ++ " to " ++
              toString newSalePrice) s1)
      | some oldPrice =>
          .ok (logChange now .updateSalePrice [cardId]
            ("Updated sale price for card " ++ toString cardId ++ " from " ++
              toString oldPrice ++ " to " ++ toString newSalePrice) s1)

/-- The per-card function `updateCard` maps over the caller's list:
replaces all descriptive and commerce fields, never `id`, `owner`,
`salePrice`, `transactionType`, `tradeReference`, `saleDate`, `image`. -/
def updateCardUpdate (cardId : CardId) (name rarity : String)
    (purchasePrice discountPercent : ℚ) (paymentMethod : PaymentMethod)
    (country league club : String) (age : Nat) (version season : String)
    (position : Position) (purchaseDate : Option Time) (notes : String)
    (card : Card) : Card :=
  if card.id = cardId then
    { card with
      name, rarity, purchasePrice, discountPercent, paymentMethod, country
      league, club, age, version, season, position, purchaseDate, notes }
  else card

/-- `updateCard` of `main.mo`. -/
def updateCard (auth : Bool) (now : Time) (cardId : CardId)
    (name rarity : String) (purchasePrice discountPercent : ℚ)
    (paymentMethod : PaymentMethod) (country league club : String)
    (age : Nat) (version season : String) (position : Position)
    (purchaseDate : Option Time) (notes : String) (s : UserState) :
    Except String UserState :=
  if ¬ auth then .error "Unauthorized: Only users can update cards" else
  if ¬ verifyCardOwnership s cardId then
    .error "Unauthorized: Card does not belong to caller" else
  match s.cards with
  | none => .error "Card not found"
  | some userCards =>
      let oldName :=
        userCards.foldl
          (fun acc card => if card.id = cardId then card.name else acc) ""
      let updatedCards :=
        userCards.map
          (updateCardUpdate cardId name rarity purchasePrice discountPercent
            paymentMethod country league club age version season position
            purchaseDate notes)
      let s1 := { s with cards := some updatedCards }
      .ok (logChange now .editCard [cardId]
        ("Edited card #" ++ toString cardId ++ ": " ++ oldName ++ " -> " ++
          name) s1)

/-- `deleteCard` of `main.mo`. -/
def deleteCard (auth : Bool) (now : Time) (cardId : CardId)
    (s : UserState) : Except String UserState :=
  if ¬ auth then .error "Unauthorized: Only users can delete cards" else
  if ¬ verifyCardOwnership s cardId then
    .error "Unauthorized: Card does not belong to caller" else
  match s.cards with
  | none => .error "Card not found"
  | some userCards =>
      let deletedCardName :=
        userCards.foldl
          (fun acc card => if card.id = cardId then card.name else acc) ""
      let filteredItems := userCards.filter (fun card => ¬ card.id = cardId)
      let s1 := { s with cards := some filteredItems }
      let summary :=
        if deletedCardName ≠ "" then
          "Deleted card #" ++ toString cardId ++ " (" ++ deletedCardName ++ ")"
        else "Deleted card " ++ toString cardId
      .ok (logChange now .deleteCard [cardId] summary s1)

/-- The per-card function `markCardAsSold` maps over the caller's list. -/
def markSoldUpdate (cardId : CardId) (salePrice : ℚ) (saleDate : Time)
    (card : Card) : Card :=
  if card.id = cardId then
    { card with
      transactionType := .sold
      salePrice := some salePrice
      saleDate := some saleDate }
  else card

/-- `markCardAsSold` of `main.mo`. -/
def markCardAsSold (auth : Bool) (now : Time) (cardId : CardId)
    (salePrice : ℚ) (saleDate : Time) (s : UserState) :
    Except String UserState :=
  if ¬ auth then .error "Unauthorized: Only users can sell cards" else
  if ¬ verifyCardOwnership s cardId then
    .error "Unauthorized: Card does not belong to caller" else
  match s.cards with
  | none => .error "Cards not found"
  | some userCards =>
      let found := userCards.any (fun card => decide (card.id = cardId))
      let updatedItems := userCards.map (markSoldUpdate cardId salePrice saleDate)
      if ¬ found then .error "CardId not found" else
      .ok (logChange now .markSold [cardId]
        ("Card " ++ toString cardId ++ " marked as sold for " ++
          toString salePrice ++ " at " ++ toString saleDate)
        { s with cards := some updatedItems })

/-- `calculateInvestmentTotals` of `main.mo`, as a pure function of the
caller's card list: one pass accumulating cash and eth investments. -/
def calculateInvestmentTotals (allCards : List Card) : InvestmentTotals :=
  allCards.foldl
    (fun acc card =>
      match card.paymentMethod with
      | .cash =>
          { acc with totalCashInvested :=
              acc.totalCashInvested +
                card.purchasePrice * (1 - card.discountPercent / 100) }
      | .eth =>
          { acc with totalEthInvested :=
              acc.totalEthInvested +
                card.purchasePrice * (1 - card.discountPercent / 100) }
      | _ => acc)
    ⟨0, 0⟩

/-- `calculateTotalInvested` of `main.mo`, as a pure function of the
caller's card list. -/
def calculateTotalInvested (allCards : List Card) : ℚ :=
  allCards.foldl
    (fun total card =>
      match card.paymentMethod with
      | .cash => total + card.purchasePrice * (1 - card.discountPercent / 100)
      | .eth => total + card.purchasePrice * (1 - card.discountPercent / 100)
      | _ => total)
    0

/-- `getSoldCardBalance` of `main.mo`, as a pure function of the caller's
card list. -/
def getSoldCardBalance (allCards : List Card) : ℚ :=
  allCards.foldl
    (fun balance card =>
      if card.transactionType = .sold then
        let balance1 :=
          match card.salePrice with
          | none => balance
          | some price => balance + price
        if ¬ card.paymentMethod = .essence then
          balance1 - card.purchasePrice * (1 - card.discountPercent / 100)
        else balance1
      else balance)
    0

/-- The four accumulators of the single loop of `getPortfolioSnapshot`. -/
structure SnapAcc where
  totalCash : ℚ
  totalEth : ℚ
  totalInvested : ℚ
  totalReturns : ℚ
deriving DecidableEq

/-- One iteration of the loop of `getPortfolioSnapshot`. -/
def snapStep (acc : SnapAcc) (card : Card) : SnapAcc :=
  let acc1 :=
    match card.paymentMethod with
    | .cash =>
        let cashValue := card.purchasePrice * (1 - card.discountPercent / 100)
        { acc with
          totalCash := acc.totalCash + cashValue
          totalInvested := acc.totalInvested + cashValue }
    | .eth =>
        let ethValue := card.purchasePrice * (1 - card.discountPercent / 100)
        { acc with
          totalEth := acc.totalEth + ethValue
          totalInvested := acc.totalInvested + ethValue }
    | _ => acc
  if card.transactionType = .sold then
    match card.salePrice with
    | some price => { acc1 with totalReturns := acc1.totalReturns + price }
    | _ => acc1
  else acc1

/-- `getPortfolioSnapshot` of `main.mo`, as a pure function of the
caller's card list. -/
def getPortfolioSnapshot (allCards : List Card) : PortfolioSnapshot :=
  let acc := allCards.foldl snapStep ⟨0, 0, 0, 0⟩
  { investmentTotals := ⟨acc.totalCash, acc.totalEth⟩,
    totalInvested := acc.totalInvested,
    totalBalance := acc.totalReturns - acc.totalInvested,
    totalReturns := acc.totalReturns,
    totalReturnBalance := acc.totalReturns - acc.totalInvested,
    portfolioTotal := acc.totalReturns + acc.totalInvested,
    holdBalance := acc.totalInvested,
    allCards := allCards }

/-- The per-card function `recordTradeTransaction` maps over the caller's
list: a `forSale` card whose id is among the existing given ids becomes
`tradedGiven` and gets the trade reference attached; every other card is
untouched. -/
def recordTradeUpdate (existingGivenIds receivedCardIds : List CardId)
    (card : Card) : Card :=
  if card.transactionType = .forSale then
    let isGiven := (existingGivenIds.find? (fun id => decide (id = card.id))).isSome
    if isGiven then
      { card with
        transactionType := .tradedGiven
        tradeReference := some ⟨existingGivenIds, receivedCardIds⟩ }
    else card
  else card

/-- `recordTradeTransaction` of `main.mo`: the for-loop over
`givenCardIds` traps at the first id the caller does not own, which is
observationally `List.all` on `verifyCardOwnership`. -/
def recordTradeTransaction (auth : Bool) (now : Time)
    (givenCardIds receivedCardIds : List CardId) (s : UserState) :
    Except String UserState :=
  if ¬ auth then
    .error "Unauthorized: Only logged in users can record trades" else
  if ¬ givenCardIds.all (fun cardId => verifyCardOwnership s cardId) then
    .error "Unauthorized: One or more cards do not belong to caller" else
  match s.cards with
  | none => .error "Card not found"
  | some currentCards =>
      let allExistingIds := currentCards.map (fun card => card.id)
      let existingGivenIds :=
        givenCardIds.filter (fun id => decide (id ∈ allExistingIds))
      if existingGivenIds.length ≠ givenCardIds.length ∧
          existingGivenIds.length = 0 then
        .error "Unable to trade, non-existing cards"
      else
        let updatedCards :=
          currentCards.map (recordTradeUpdate existingGivenIds receivedCardIds)
        .ok (logChange now .trade existingGivenIds
          ("Recorded trade: " ++ toString existingGivenIds.length ++
            " cards given, " ++ toString receivedCardIds.length ++ " received")
          { s with cards := some updatedCards })

/-- The per-card function `revertTradeTransaction` maps over the caller's
list: only the targeted card, and only while it is `tradedGiven`, goes
back to `forSale` with its trade reference cleared. -/
def revertTradeUpdate (cardId : CardId) (card : Card) : Card :=
  if card.id = cardId ∧ card.transactionType = .tradedGiven then
    { card with transactionType := .forSale, tradeReference := none }
  else card

/-- `revertTradeTransaction` of `main.mo`. -/
def revertTradeTransaction (auth : Bool) (now : Time) (cardId : CardId)
    (tradeTransaction : TradeTransaction) (s : UserState) :
    Except String UserState :=
  if ¬ auth then
    .error "Unauthorized: Only logged in users can revert trades" else
  if ¬ verifyCardOwnership s cardId then
    .error "Unauthorized: Card does not belong to caller" else
  match s.cards with
  | none => .error "Card not found"
  | some currentCards =>
      match currentCards.find? (fun card => decide (card.id = cardId)) with
      | none => .error "Non-existing trade card"
      | some _ =>
          let updatedCards := currentCards.map (revertTradeUpdate cardId)
          .ok (logChange now .revertTrade tradeTransaction.givenCards
            ("Reverted trade for card: " ++ toString cardId)
            { s with cards := some updatedCards })

/-- One iteration of the backfill loop of `backfillHistoryEntries`:
`forSale` cards get one synthesized `addCard` entry, `sold` cards get a
synthesized `addCard` entry followed by a `markSold` entry, every other
card gets nothing. -/
def backfillCardStep (now : Time) (st : UserState) (card : Card) : UserState :=
  match card.transactionType with
  | .forSale =>
      logChange now .addCard [card.id]
        ("Backfilled: Added card #" ++ toString card.id ++ " (" ++
          card.name ++ ")") st
  | .sold =>
      let st1 :=
        logChange now .addCard [card.id]
          ("Backfilled: Added card #" ++ toString card.id ++ " (" ++
            card.name ++ ")") st
      let salePriceText :=
        match card.salePrice with
        | some price => toString price
        | none => "unknown price"
      logChange now .markSold [card.id]
        ("Backfilled: Sold card #" ++ toString card.id ++ " (" ++
          card.name ++ ") for " ++ salePriceText) st1
  | _ => st

/-- `backfillHistoryEntries` of `main.mo`. -/
def backfillHistoryEntries (auth : Bool) (now : Time) (s : UserState) :
    Except String UserState :=
  if ¬ auth then
    .error "Unauthorized: Only users can backfill their history" else
  if s.backfilled then .ok s
  else
    let s1 :=
      match s.cards with
      | none => s
      | some userCards => userCards.foldl (backfillCardStep now) s
    .ok { s1 with backfilled := true }

/-! ## Concrete fixtures and projections used by witnesses -/

/-- A card with the given id and lifecycle state and default values
everywhere else; the fixture used by concrete witness states. -/
def baseCard (id : Nat) (tt : TransactionType) : Card :=
  { id := id, name := "", rarity := "", purchasePrice := 0,
    discountPercent := 0, paymentMethod := .cash, salePrice := none,
    owner := 0, country := "", league := "", club := "", age := 0,
    version := "", season := "", position := .torwart,
    transactionType := tt, tradeReference := none, purchaseDate := none,
    saleDate := none, notes := "", image := none }

/-- The state a successful call returns, if any. -/
def okOf (r : Except String UserState) : Option UserState :=
  match r with
  | .ok s => some s
  | .error _ => none

/-- The trap message of a failed call, if any. -/
def errOf (r : Except String UserState) : Option String :=
  match r with
  | .ok _ => none
  | .error e => some e

/-! ## Specification-side derivation rules (section 4.2 of the spec)

The following definitions formalise the spec's wording of the aggregation
rules, to be compared with the operational definitions above. -/

/-- `effectiveCost(card) = purchasePrice × (1 − discountPercent/100)`. -/
def effectiveCost (card : Card) : ℚ :=
  card.purchasePrice * (1 - card.discountPercent / 100)

/-- The cards whose payment method is `cash` or `eth`. -/
def paysCashOrEth (card : Card) : Bool :=
  decide (card.paymentMethod = .cash ∨ card.paymentMethod = .eth)

/-- Spec: `totalInvested = Σ effectiveCost(card)` over cards whose
payment method is `cash` or `eth`. -/
def investedSpec (cards : List Card) : ℚ :=
  ((cards.filter paysCashOrEth).map effectiveCost).sum

/-- Spec: the cash part of the invested sum. -/
def cashInvestedSpec (cards : List Card) : ℚ :=
  ((cards.filter (fun c => decide (c.paymentMethod = .cash))).map
    effectiveCost).sum

/-- Spec: the eth part of the invested sum. -/
def ethInvestedSpec (cards : List Card) : ℚ :=
  ((cards.filter (fun c => decide (c.paymentMethod = .eth))).map
    effectiveCost).sum

/-- Spec: `totalReturns = Σ salePrice` over sold cards, an absent sale
price contributing 0. -/
def returnsSpec (cards : List Card) : ℚ :=
  ((cards.filter (fun c => decide (c.transactionType = .sold))).map
    (fun c => c.salePrice.getD 0)).sum

/-- Spec: per-sold-card profit,
`salePrice − (paymentMethod == essence ? 0 : effectiveCost)`, summed over
sold cards; an absent sale price contributes 0 on the price side. -/
def soldBalanceSpec (cards : List Card) : ℚ :=
  ((cards.filter (fun c => decide (c.transactionType = .sold))).map
    (fun c => c.salePrice.getD 0 -
      (if c.paymentMethod = .essence then 0 else effectiveCost c))).sum

/-- Per-card contribution to the invested total. -/
def invContrib (card : Card) : ℚ :=
  if paysCashOrEth card then effectiveCost card else 0

/-- Per-card contribution to the cash invested total. -/
def cashContrib (card : Card) : ℚ :=
  if card.paymentMethod = .cash then effectiveCost card else 0

/-- Per-card contribution to the eth invested total. -/
def ethContrib (card : Card) : ℚ :=
  if card.paymentMethod = .eth then effectiveCost card else 0

/-- Per-card contribution to the returns total. -/
def retContrib (card : Card) : ℚ :=
  if card.transactionType = .sold then card.salePrice.getD 0 else 0

/-- Per-card contribution to the sold-card balance. -/
def soldContrib (card : Card) : ℚ :=
  if card.transactionType = .sold then
    card.salePrice.getD 0 -
      (if card.paymentMethod = .essence then 0 else effectiveCost card)
  else 0

/-! ## Helper lemmas about folds and sums -/

theorem foldl_add_of_pointwise (g : Card → ℚ) (f : ℚ → Card → ℚ)
    (hf : ∀ t c, f t c = t + g c) :
    ∀ (l : List Card) (t : ℚ), l.foldl f t = t + (l.map g).sum := by
  intro l
  induction l with
  | nil => intro t; simp
  | cons c l ih => intro t; simp [hf, ih, add_assoc]

theorem sum_map_eq_sum_filter_map (p : Card → Bool) (g h : Card → ℚ)
    (hg : ∀ c, g c = if p c then h c else 0) :
    ∀ l : List Card, (l.map g).sum = ((l.filter p).map h).sum := by
  intro l
  induction l with
  | nil => simp
  | cons c l ih =>
      by_cases hp : p c <;> simp [hg, hp, List.filter_cons, ih]

theorem calculateTotalInvested_eq_sum (cards : List Card) :
    calculateTotalInvested cards = (cards.map invContrib).sum := by
  have h := foldl_add_of_pointwise invContrib
    (fun total card =>
      match card.paymentMethod with
      | .cash => total + card.purchasePrice * (1 - card.discountPercent / 100)
      | .eth => total + card.purchasePrice * (1 - card.discountPercent / 100)
      | _ => total)
    (by
      intro t c
      cases hpm : c.paymentMethod <;>
        simp [invContrib, paysCashOrEth, effectiveCost, hpm])
    cards 0
  simpa [calculateTotalInvested] using h

theorem invContrib_split (c : Card) :
    invContrib c = cashContrib c + ethContrib c := by
  cases hpm : c.paymentMethod <;>
    simp [invContrib, cashContrib, ethContrib, paysCashOrEth, hpm]

theorem calculateInvestmentTotals_eq (cards : List Card) :
    calculateInvestmentTotals cards =
      ⟨(cards.map cashContrib).sum, (cards.map ethContrib).sum⟩ := by
  suffices h : ∀ (l : List Card) (acc : InvestmentTotals),
      l.foldl
        (fun acc card =>
          match card.paymentMethod with
          | .cash =>
              { acc with totalCashInvested :=
                  acc.totalCashInvested +
                    card.purchasePrice * (1 - card.discountPercent / 100) }
          | .eth =>
              { acc with totalEthInvested :=
                  acc.totalEthInvested +
                    card.purchasePrice * (1 - card.discountPercent / 100) }
          | _ => acc)
        acc =
      ⟨acc.totalCashInvested + (l.map cashContrib).sum,
        acc.totalEthInvested + (l.map ethContrib).sum⟩ by
    simpa [calculateInvestmentTotals] using h cards ⟨0, 0⟩
  intro l
  induction l with
  | nil => intro acc; simp
  | cons c l ih =>
      intro acc
      cases hpm : c.paymentMethod <;>
        simp [ih, hpm, cashContrib, ethContrib, effectiveCost, add_assoc]

theorem snapStep_eq (acc : SnapAcc) (card : Card) :
    snapStep acc card =
      ⟨acc.totalCash + cashContrib card, acc.totalEth + ethContrib card,
        acc.totalInvested + invContrib card,
        acc.totalReturns + retContrib card⟩ := by
  cases hpm : card.paymentMethod <;>
    cases htt : card.transactionType <;>
      cases hsp : card.salePrice <;>
        simp [snapStep, cashContrib, ethContrib, invContrib, retContrib,
          paysCashOrEth, effectiveCost, hpm, htt, hsp]

theorem snapFold_eq (cards : List Card) :
    ∀ acc : SnapAcc,
      cards.foldl snapStep acc =
        ⟨acc.totalCash + (cards.map cashContrib).sum,
          acc.totalEth + (cards.map ethContrib).sum,
          acc.totalInvested + (cards.map invContrib).sum,
          acc.totalReturns + (cards.map retContrib).sum⟩ := by
  induction cards with
  | nil => intro acc; simp
  | cons c l ih => intro acc; simp [snapStep_eq, ih, add_assoc]

theorem getPortfolioSnapshot_totalInvested (cards : List Card) :
    (getPortfolioSnapshot cards).totalInvested =
      (cards.map invContrib).sum := by
  simp [getPortfolioSnapshot, snapFold_eq]

theorem getPortfolioSnapshot_investmentTotals (cards : List Card) :
    (getPortfolioSnapshot cards).investmentTotals =
      ⟨(cards.map cashContrib).sum, (cards.map ethContrib).sum⟩ := by
  simp [getPortfolioSnapshot, snapFold_eq]

theorem invContrib_sum_eq_investedSpec (cards : List Card) :
    (cards.map invContrib).sum = investedSpec cards := by
  exact sum_map_eq_sum_filter_map paysCashOrEth invContrib effectiveCost
    (fun c => by simp [invContrib]) cards

theorem getSoldCardBalance_eq_sum (cards : List Card) :
    getSoldCardBalance cards = (cards.map soldContrib).sum := by
  have h := foldl_add_of_pointwise soldContrib
    (fun balance card =>
      if card.transactionType = .sold then
        let balance1 :=
          match card.salePrice with
          | none => balance
          | some price => balance + price
        if ¬ card.paymentMethod = .essence then
          balance1 - card.purchasePrice * (1 - card.discountPercent / 100)
        else balance1
      else balance)
    (by
      intro t c
      by_cases htt : c.transactionType = .sold <;>
        by_cases hpm : c.paymentMethod = .essence <;>
          cases hsp : c.salePrice <;>
            simp [soldContrib, effectiveCost, htt, hpm, hsp, sub_eq_add_neg,
              add_assoc])
    cards 0
  simpa [getSoldCardBalance] using h

/-- Claim C6 -- `calculateTotalInvested`, and the `totalInvested` field of
`getPortfolioSnapshot`, equal the sum of
`purchasePrice × (1 − discountPercent/100)` over exactly the cards paid
with cash or eth; essence- and trade-financed cards contribute nothing
regardless of their purchase price. -/
theorem calculateTotalInvested_spec (cards : List Card) :
    calculateTotalInvested cards = investedSpec cards ∧
    (getPortfolioSnapshot cards).totalInvested = investedSpec cards := by
  constructor
  · rw [calculateTotalInvested_eq_sum, invContrib_sum_eq_investedSpec]
  · rw [getPortfolioSnapshot_totalInvested, invContrib_sum_eq_investedSpec]

/-- Claim C7 -- `getSoldCardBalance` equals the sum over sold cards of
sale price (0 when absent) minus effective purchase cost, the cost term
being 0 for essence-financed cards; and an essence-financed card never
contributes to `calculateTotalInvested`. -/
theorem getSoldCardBalance_spec (cards : List Card) :
    getSoldCardBalance cards = soldBalanceSpec cards ∧
    ∀ c : Card, c.paymentMethod = .essence →
      calculateTotalInvested (c :: cards) = calculateTotalInvested cards := by
  constructor
  · rw [getSoldCardBalance_eq_sum]
    exact sum_map_eq_sum_filter_map
      (fun c => decide (c.transactionType = .sold)) soldContrib
      (fun c => c.salePrice.getD 0 -
        (if c.paymentMethod = .essence then 0 else effectiveCost c))
      (fun c => by simp [soldContrib]) cards
  · intro c hc
    rw [calculateTotalInvested_eq_sum, calculateTotalInvested_eq_sum]
    simp [invContrib, paysCashOrEth, hc]

/-- An essence-financed sold card with an (irrelevant) non-zero purchase
price, as in scenario 3 of the spec. -/
def essenceCard : Card :=
  { baseCard 1 .sold with
    paymentMethod := .essence
    purchasePrice := 999
    salePrice := some 50 }

/-- Witness for `getSoldCardBalance_spec`: an essence card contributes
nothing to the invested total. -/
theorem getSoldCardBalance_spec_witness :
    calculateTotalInvested [essenceCard] = calculateTotalInvested [] :=
  (getSoldCardBalance_spec []).2 essenceCard rfl

/-- Claim C8 -- the invested total always splits as the sum of the cash
and eth invested totals, both for the standalone queries
(`calculateTotalInvested` versus `calculateInvestmentTotals`) and inside
`getPortfolioSnapshot`. -/
theorem totalInvested_eq_cash_add_eth (cards : List Card) :
    calculateTotalInvested cards =
      (calculateInvestmentTotals cards).totalCashInvested +
        (calculateInvestmentTotals cards).totalEthInvested ∧
    (getPortfolioSnapshot cards).totalInvested =
      (getPortfolioSnapshot cards).investmentTotals.totalCashInvested +
        (getPortfolioSnapshot cards).investmentTotals.totalEthInvested := by
  have hsum : (cards.map invContrib).sum =
      (cards.map cashContrib).sum + (cards.map ethContrib).sum := by
    induction cards with
    | nil => simp
    | cons c l ih => simp [invContrib_split c, ih]; ring
  constructor
  · rw [calculateTotalInvested_eq_sum, calculateInvestmentTotals_eq]
    exact hsum
  · rw [getPortfolioSnapshot_totalInvested,
      getPortfolioSnapshot_investmentTotals]
    exact hsum

/-! ## Backfill -/

/-- The history entries the backfill synthesizes for one card, phrased
after the spec: an `addCard` entry when the card is `forSale` or `sold`,
and additionally a `markSold` entry when it is `sold`, using the stored
sale price or the "unknown price" placeholder when absent. -/
def specBackfillEntries (now : Time) (card : Card) : List ChangeHistoryEntry :=
  (if card.transactionType = .forSale ∨ card.transactionType = .sold then
    [⟨now, .addCard, [card.id],
      "Backfilled: Added card #" ++ toString card.id ++ " (" ++
        card.name ++ ")"⟩]
  else []) ++
  (if card.transactionType = .sold then
    [⟨now, .markSold, [card.id],
      "Backfilled: Sold card #" ++ toString card.id ++ " (" ++
        card.name ++ ") for " ++
        (match card.salePrice with
          | some price => toString price
          | none => "unknown price")⟩]
  else [])

theorem backfillCardStep_eq (now : Time) (st : UserState) (card : Card) :
    backfillCardStep now st card =
      { st with history := st.history ++ specBackfillEntries now card } := by
  cases htt : card.transactionType <;>
    simp [backfillCardStep, specBackfillEntries, logChange, htt]

theorem backfillFold_eq (now : Time) :
    ∀ (cs : List Card) (st : UserState),
      cs.foldl (backfillCardStep now) st =
        { st with history :=
            st.history ++ cs.flatMap (specBackfillEntries now) } := by
  intro cs
  induction cs with
  | nil => intro st; simp
  | cons c l ih => intro st; simp [backfillCardStep_eq, ih]

theorem specBackfillEntries_length (now : Time) :
    ∀ cs : List Card,
      (cs.flatMap (specBackfillEntries now)).length =
        (cs.filter (fun c => decide (c.transactionType = .forSale ∨
          c.transactionType = .sold))).length +
        (cs.filter (fun c => decide (c.transactionType = .sold))).length := by
  intro cs
  induction cs with
  | nil => simp
  | cons c l ih =>
      cases htt : c.transactionType <;>
        simp [specBackfillEntries, List.filter_cons, htt, ih] <;> omega

/-- Claim C3 (amended) -- on the first invocation for a user the backfill
appends exactly the per-card synthesized entries: one `addCard` entry per
card currently `forSale` or `sold` (a `tradedGiven` or `tradedReceived`
card gets none), plus one `markSold` entry per card currently `sold`
(with its stored sale price, or the "unknown price" placeholder when
absent); the card collection itself is untouched and the marker is set. -/
theorem backfillHistoryEntries_first_run (now : Time) (s : UserState)
    (h : s.backfilled = false) :
    ∃ s', backfillHistoryEntries true now s = .ok s' ∧
      s'.cards = s.cards ∧ s'.backfilled = true ∧
      s'.history = s.history ++ (cardsOf s).flatMap (specBackfillEntries now) ∧
      s'.history.length = s.history.length +
        ((cardsOf s).filter (fun c => decide (c.transactionType = .forSale ∨
          c.transactionType = .sold))).length +
        ((cardsOf s).filter
          (fun c => decide (c.transactionType = .sold))).length := by
  have hlen : ∀ s' : UserState,
      s'.history = s.history ++ (cardsOf s).flatMap (specBackfillEntries now) →
      s'.history.length = s.history.length +
        ((cardsOf s).filter (fun c => decide (c.transactionType = .forSale ∨
          c.transactionType = .sold))).length +
        ((cardsOf s).filter
          (fun c => decide (c.transactionType = .sold))).length := by
    intro s' hh
    rw [hh, List.length_append, specBackfillEntries_length, Nat.add_assoc]
  cases hc : s.cards with
  | none =>
      refine ⟨{ s with backfilled := true }, ?_, ?_, rfl, ?_, ?_⟩
      · simp [backfillHistoryEntries, h, hc]
      · simp [hc]
      · simp [cardsOf, hc]
      · exact hlen _ (by simp [cardsOf, hc])
  | some cs =>
      refine ⟨{ s with
        history := s.history ++ cs.flatMap (specBackfillEntries now)
        backfilled := true }, ?_, ?_, rfl, ?_, ?_⟩
      · simp [backfillHistoryEntries, h, hc, backfillFold_eq]
      · simp [hc]
      · simp [cardsOf, hc]
      · exact hlen _ (by simp [cardsOf, hc])

/-- A pre-logging account: one `forSale` card and one `sold` card without
a sale price, empty history, backfill not yet run. -/
def bfFixture : UserState :=
  ⟨some [baseCard 0 .forSale, baseCard 1 .sold], [], false, 2⟩

/-- Witness for `backfillHistoryEntries_first_run` at `bfFixture`. -/
theorem backfillHistoryEntries_first_run_witness :
    ∃ s', backfillHistoryEntries true 0 bfFixture = .ok s' ∧
      s'.cards = bfFixture.cards ∧ s'.backfilled = true ∧
      s'.history = bfFixture.history ++
        (cardsOf bfFixture).flatMap (specBackfillEntries 0) ∧
      s'.history.length = bfFixture.history.length +
        ((cardsOf bfFixture).filter
          (fun c => decide (c.transactionType = .forSale ∨
            c.transactionType = .sold))).length +
        ((cardsOf bfFixture).filter
          (fun c => decide (c.transactionType = .sold))).length :=
  backfillHistoryEntries_first_run 0 bfFixture rfl

/-- Counterexample to claim C3 as stated: a user whose single card is in
state `tradedGiven` gets no `addCard` entry at all from the first
backfill -- the history stays empty although the claim demands one entry
per card whatever its state. -/
theorem backfill_traded_card_gets_no_entry :
    (okOf (backfillHistoryEntries true 0
        ⟨some [baseCard 0 .tradedGiven], [], false, 1⟩)).map
      (fun s' => s'.history.length) = some 0 := by rfl

/-- Claim C5 -- backfill is idempotent: after a successful backfill, a
second invocation returns the very same state, so in particular the
history-entry count is that of a single call. -/
theorem backfillHistoryEntries_idempotent (now now' : Time)
    (s s' : UserState) (h : backfillHistoryEntries true now s = .ok s') :
    backfillHistoryEntries true now' s' = .ok s' := by
  have hb : s'.backfilled = true := by
    by_cases hbs : s.backfilled
    · simp [backfillHistoryEntries, hbs] at h
      simpa [← h] using hbs
    · simp [backfillHistoryEntries, hbs] at h
      cases hc : s.cards <;> simp [hc] at h <;> simp [← h]
  simp [backfillHistoryEntries, hb]

/-- The state left behind by a first backfill over one `forSale` card. -/
def bfDoneFixture : UserState :=
  ⟨some [baseCard 0 .forSale],
    [⟨3, .addCard, [0], "Backfilled: Added card #0 ()"⟩], true, 1⟩

/-- Witness for `backfillHistoryEntries_idempotent` at a concrete state. -/
theorem backfillHistoryEntries_idempotent_witness :
    backfillHistoryEntries true 7 bfDoneFixture = .ok bfDoneFixture :=
  backfillHistoryEntries_idempotent 3 7
    ⟨some [baseCard 0 .forSale], [], false, 1⟩ bfDoneFixture (by rfl)

/-! ## Ownership, deletion, trades -/

theorem verifyCardOwnership_iff (s : UserState) (cardId : CardId) :
    verifyCardOwnership s cardId = true ↔
      cardId ∈ (cardsOf s).map (fun c => c.id) := by
  cases hc : s.cards with
  | none => simp [verifyCardOwnership, cardsOf, hc]
  | some cs =>
      simp [verifyCardOwnership, cardsOf, hc, List.find?_isSome, List.mem_map]

/-- Claim C9 (amended) -- deleting an id that is not in the caller's
collection fails: the call traps with the ownership message
"Unauthorized: Card does not belong to caller" (not a not-found message),
and since a trap rolls the message back, the collection is unchanged and
no history entry is appended. -/
theorem deleteCard_absent_id (now : Time) (cardId : CardId)
    (s : UserState) (h : cardId ∉ (cardsOf s).map (fun c => c.id)) :
    deleteCard true now cardId s =
      .error "Unauthorized: Card does not belong to caller" := by
  have hv : ¬ verifyCardOwnership s cardId = true := by
    rw [verifyCardOwnership_iff]; exact h
  simp [deleteCard, hv]

/-- Witness for `deleteCard_absent_id`: deleting id 5 from a collection
holding only card 0. -/
theorem deleteCard_absent_id_witness :
    deleteCard true 0 5 ⟨some [baseCard 0 .forSale], [], false, 1⟩ =
      .error "Unauthorized: Card does not belong to caller" :=
  deleteCard_absent_id 0 5 ⟨some [baseCard 0 .forSale], [], false, 1⟩
    (by decide)

/-- Counterexample to claim C9 as stated: the failure for an absent id is
the ownership trap, whose message is not the not-found message the claim
names (`deleteCard`'s only not-found trap text is "Card not found"). -/
theorem deleteCard_absent_error_message :
    errOf (deleteCard true 0 0 ⟨some [], [], false, 0⟩) =
        some "Unauthorized: Card does not belong to caller" ∧
      ("Unauthorized: Card does not belong to caller" : String) ≠
        "Card not found" := by
  constructor
  · rfl
  · decide

/-- Claim C1 (code bug) -- evaluation of `recordTradeTransaction` at the
spec's scenario 4: cards 0 and 1 are both `forSale`, card 0 is given and
card 1 received. The given card 0 becomes `tradedGiven` with the trade
reference attached, but the received card 1 is left `forSale` with no
trade reference -- no code path of the backend ever assigns
`tradedReceived`. -/
theorem recordTradeTransaction_received_cards_untouched :
    (okOf (recordTradeTransaction true 0 [0] [1]
        ⟨some [baseCard 0 .forSale, baseCard 1 .forSale], [], false, 2⟩)).map
      (fun s' => (cardsOf s').map
        (fun c => (c.id, c.transactionType, c.tradeReference))) =
      some [(0, .tradedGiven, some ⟨[0], [1]⟩), (1, .forSale, none)] := by
  rfl

/-- Counterexample to claim C2 as stated: the caller owns card 0 but not
card 5, so by the claim the trade should proceed restricted to the owned
subset `[0]`; instead the per-id ownership loop traps on 5 and the whole
call fails. -/
theorem recordTradeTransaction_partial_subset_counterexample :
    errOf (recordTradeTransaction true 0 [0, 5] []
        ⟨some [baseCard 0 .forSale], [], false, 1⟩) =
      some "Unauthorized: One or more cards do not belong to caller" := by
  rfl

/-- Claim C2 (amended) -- ownership policy of `recordTradeTransaction`:
the call traps as soon as any given id is not owned by the caller (so it
never proceeds on a proper subset); when every given id is owned it
succeeds, rewrites the collection by the per-card trade update (which
moves exactly the `forSale` cards among the given ids to `tradedGiven`),
and appends one history entry. -/
theorem recordTradeTransaction_ownership_policy (now : Time)
    (given received : List CardId) (s : UserState) :
    ((¬ ∀ id ∈ given, verifyCardOwnership s id = true) →
      recordTradeTransaction true now given received s =
        .error "Unauthorized: One or more cards do not belong to caller") ∧
    (∀ cs, s.cards = some cs →
      (∀ id ∈ given, id ∈ cs.map (fun c => c.id)) →
      ∃ s', recordTradeTransaction true now given received s = .ok s' ∧
        s'.cards = some (cs.map (recordTradeUpdate given received)) ∧
        s'.history.length = s.history.length + 1) := by
  constructor
  · intro hno
    have hall : ¬ given.all (fun cardId => verifyCardOwnership s cardId) := by
      simpa [List.all_eq_true] using hno
    simp [recordTradeTransaction, hall]
  · intro cs hc hmem
    have hall : given.all (fun cardId => verifyCardOwnership s cardId) := by
      rw [List.all_eq_true]
      intro id hid
      rw [verifyCardOwnership_iff]
      simpa [cardsOf, hc] using hmem id hid
    have hfilter :
        given.filter (fun id => decide (id ∈ cs.map (fun c => c.id))) =
          given := by
      rw [List.filter_eq_self]
      intro id hid
      simpa using hmem id hid
    refine ⟨logChange now .trade given
      ("Recorded trade: " ++ toString given.length ++ " cards given, " ++
        toString received.length ++ " received")
      { s with cards := some (cs.map (recordTradeUpdate given received)) },
      ?_, ?_, ?_⟩
    · have hfilter2 :
          List.filter (fun id => decide (∃ a ∈ cs, a.id = id)) given =
            given := by
        rw [List.filter_eq_self]
        intro id hid
        have hm := hmem id hid
        rw [List.mem_map] at hm
        obtain ⟨a, ha, haid⟩ := hm
        exact decide_eq_true ⟨a, ha, haid⟩
      simp [recordTradeTransaction, hall, hc, hfilter, hfilter2]
    · simp [logChange]
    · simp [logChange]

/-- Witness for `recordTradeTransaction_ownership_policy`: both parts at
concrete inputs -- the failing part with an unowned id 5, the succeeding
part with the fully owned list `[0]`. -/
theorem recordTradeTransaction_ownership_policy_witness :
    (recordTradeTransaction true 0 [5] [7]
        ⟨some [baseCard 0 .forSale], [], false, 1⟩ =
      .error "Unauthorized: One or more cards do not belong to caller") ∧
    ∃ s', recordTradeTransaction true 0 [0] [7]
        ⟨some [baseCard 0 .forSale], [], false, 1⟩ = .ok s' ∧
      s'.cards = some ([baseCard 0 .forSale].map (recordTradeUpdate [0] [7])) ∧
      s'.history.length = 0 + 1 := by
  constructor
  · exact (recordTradeTransaction_ownership_policy 0 [5] [7]
      ⟨some [baseCard 0 .forSale], [], false, 1⟩).1 (by decide)
  · exact (recordTradeTransaction_ownership_policy 0 [0] [7]
      ⟨some [baseCard 0 .forSale], [], false, 1⟩).2
      [baseCard 0 .forSale] rfl (by decide)

/-- Claim C10 -- calling `revertTradeTransaction` on an owned card that is
not in state `tradedGiven` leaves every card unchanged, yet still appends
a `revertTrade` history entry whose `cardIds` are the caller-supplied
`tradeTransaction.givenCards`, unvalidated against any stored trade
reference. -/
theorem revertTradeTransaction_non_tradedGiven_frame (now : Time)
    (cardId : CardId) (t : TradeTransaction) (s : UserState)
    (cs : List Card) (hc : s.cards = some cs)
    (hex : ∃ c ∈ cs, c.id = cardId)
    (hng : ∀ c ∈ cs, c.id = cardId → c.transactionType ≠ .tradedGiven) :
    revertTradeTransaction true now cardId t s =
      .ok { s with history := s.history ++
        [⟨now, .revertTrade, t.givenCards,
          "Reverted trade for card: " ++ toString cardId⟩] } := by
  have hv : verifyCardOwnership s cardId = true := by
    rw [verifyCardOwnership_iff]
    obtain ⟨c, hcmem, hcid⟩ := hex
    exact List.mem_map.mpr ⟨c, by simp [cardsOf, hc, hcmem, hcid]⟩
  have hmap : cs.map (revertTradeUpdate cardId) = cs := by
    conv_rhs => rw [← List.map_id cs]
    apply List.map_congr_left
    intro c hcmem
    by_cases hid : c.id = cardId
    · have := hng c hcmem hid
      simp [revertTradeUpdate, hid, this]
    · simp [revertTradeUpdate, hid]
  obtain ⟨c, hcmem, hcid⟩ := hex
  have hfind : ∃ x, cs.find? (fun card => decide (card.id = cardId)) = some x := by
    rw [← Option.isSome_iff_exists, List.find?_isSome]
    exact ⟨c, hcmem, by simp [hcid]⟩
  obtain ⟨x, hx⟩ := hfind
  simp only [revertTradeTransaction, hv, hc, hx]
  simp [hmap, logChange, hc]

/-- Witness for `revertTradeTransaction_non_tradedGiven_frame`: reverting
a `sold` card with a made-up trade transaction. -/
theorem revertTradeTransaction_non_tradedGiven_frame_witness :
    revertTradeTransaction true 5 0 ⟨[3, 4], [9]⟩
        ⟨some [baseCard 0 .sold], [], false, 1⟩ =
      .ok { (⟨some [baseCard 0 .sold], [], false, 1⟩ : UserState) with
        history := ([] : List ChangeHistoryEntry) ++
          [⟨5, .revertTrade, [3, 4], "Reverted trade for card: " ++ toString (0 : CardId)⟩] } :=
  revertTradeTransaction_non_tradedGiven_frame 5 0 ⟨[3, 4], [9]⟩
    ⟨some [baseCard 0 .sold], [], false, 1⟩ [baseCard 0 .sold] rfl
    ⟨baseCard 0 .sold, by decide, rfl⟩ (by decide)

/-! ## The mutation operations as one step relation (for the
state-machine claims) -/

/-- One mutation call of the actor, with its arguments. -/
inductive Op where
  | addCard (caller : Principal) (name rarity : String)
      (purchasePrice discountPercent : ℚ) (paymentMethod : PaymentMethod)
      (country league club : String) (age : Nat) (version season : String)
      (position : Position) (purchaseDate : Option Time) (notes : String)
      (image : Option String)
  | updateCard (cardId : CardId) (name rarity : String)
      (purchasePrice discountPercent : ℚ) (paymentMethod : PaymentMethod)
      (country league club : String) (age : Nat) (version season : String)
      (position : Position) (purchaseDate : Option Time) (notes : String)
  | deleteCard (cardId : CardId)
  | updateSalePrice (cardId : CardId) (newSalePrice : ℚ)
  | markCardAsSold (cardId : CardId) (salePrice : ℚ) (saleDate : Time)
  | recordTradeTransaction (givenCardIds receivedCardIds : List CardId)
  | revertTradeTransaction (cardId : CardId)
      (tradeTransaction : TradeTransaction)
  | backfillHistoryEntries

/-- Executing one mutation call against the caller's state. -/
def step (auth : Bool) (now : Time) (op : Op) (s : UserState) :
    Except String UserState :=
  match op with
  | .addCard caller name rarity purchasePrice discountPercent paymentMethod
      country league club age version season position purchaseDate notes
      image =>
      (addCard auth now caller name rarity purchasePrice discountPercent
        paymentMethod country league club age version season position
        purchaseDate notes image s).map Prod.fst
  | .updateCard cardId name rarity purchasePrice discountPercent
      paymentMethod country league club age version season position
      purchaseDate notes =>
      updateCard auth now cardId name rarity purchasePrice discountPercent
        paymentMethod country league club age version season position
        purchaseDate notes s
  | .deleteCard cardId => deleteCard auth now cardId s
  | .updateSalePrice cardId newSalePrice =>
      updateSalePrice auth now cardId newSalePrice s
  | .markCardAsSold cardId salePrice saleDate =>
      markCardAsSold auth now cardId salePrice saleDate s
  | .recordTradeTransaction givenCardIds receivedCardIds =>
      recordTradeTransaction auth now givenCardIds receivedCardIds s
  | .revertTradeTransaction cardId tradeTransaction =>
      revertTradeTransaction auth now cardId tradeTransaction s
  | .backfillHistoryEntries => backfillHistoryEntries auth now s

theorem step_false_error (now : Time) (op : Op) (s s' : UserState) :
    step false now op s = .ok s' → False := by
  cases op <;>
    simp [step, addCard, updateCard, deleteCard, updateSalePrice,
      markCardAsSold, recordTradeTransaction, revertTradeTransaction,
      backfillHistoryEntries, Except.map]

/-! Per-card update functions preserve the id, and their effect on the
lifecycle state is as described. -/

theorem updateCardUpdate_id (cardId : CardId) (name rarity : String)
    (purchasePrice discountPercent : ℚ) (paymentMethod : PaymentMethod)
    (country league club : String) (age : Nat) (version season : String)
    (position : Position) (purchaseDate : Option Time) (notes : String)
    (card : Card) :
    (updateCardUpdate cardId name rarity purchasePrice discountPercent
      paymentMethod country league club age version season position
      purchaseDate notes card).id = card.id := by
  by_cases h : card.id = cardId <;> simp [updateCardUpdate, h]

theorem updateCardUpdate_tt (cardId : CardId) (name rarity : String)
    (purchasePrice discountPercent : ℚ) (paymentMethod : PaymentMethod)
    (country league club : String) (age : Nat) (version season : String)
    (position : Position) (purchaseDate : Option Time) (notes : String)
    (card : Card) :
    (updateCardUpdate cardId name rarity purchasePrice discountPercent
      paymentMethod country league club age version season position
      purchaseDate notes card).transactionType = card.transactionType := by
  by_cases h : card.id = cardId <;> simp [updateCardUpdate, h]

theorem updateSalePriceUpdate_id (cardId : CardId) (p : ℚ) (card : Card) :
    (updateSalePriceUpdate cardId p card).id = card.id := by
  by_cases h : card.id = cardId <;> simp [updateSalePriceUpdate, h]

theorem updateSalePriceUpdate_tt (cardId : CardId) (p : ℚ) (card : Card) :
    (updateSalePriceUpdate cardId p card).transactionType =
      card.transactionType := by
  by_cases h : card.id = cardId <;> simp [updateSalePriceUpdate, h]

theorem markSoldUpdate_id (cardId : CardId) (p : ℚ) (d : Time)
    (card : Card) : (markSoldUpdate cardId p d card).id = card.id := by
  by_cases h : card.id = cardId <;> simp [markSoldUpdate, h]

theorem recordTradeUpdate_id (a b : List CardId) (card : Card) :
    (recordTradeUpdate a b card).id = card.id := by
  simp only [recordTradeUpdate]
  split
  · split <;> rfl
  · rfl

theorem recordTradeUpdate_of_not_forSale (a b : List CardId) (card : Card)
    (h : card.transactionType ≠ .forSale) :
    recordTradeUpdate a b card = card := by
  simp [recordTradeUpdate, h]

theorem revertTradeUpdate_id (cardId : CardId) (card : Card) :
    (revertTradeUpdate cardId card).id = card.id := by
  simp only [revertTradeUpdate]
  split <;> simp

/-! Characterizations of the successful runs of each mutation, as far as
the card collection is concerned. -/

theorem addCard_ok_cards (now : Time) (caller : Principal)
    (name rarity : String) (purchasePrice discountPercent : ℚ)
    (paymentMethod : PaymentMethod) (country league club : String)
    (age : Nat) (version season : String) (position : Position)
    (purchaseDate : Option Time) (notes : String) (image : Option String)
    (s s' : UserState)
    (h : (addCard true now caller name rarity purchasePrice discountPercent
      paymentMethod country league club age version season position
      purchaseDate notes image s).map Prod.fst = .ok s') :
    ∃ nc : Card, cardsOf s' = cardsOf s ++ [nc] ∧ nc.id = s.nextCardId ∧
      nc.transactionType = .forSale := by
  simp [addCard, Except.map] at h
  refine ⟨⟨s.nextCardId, name, rarity, purchasePrice, discountPercent,
    paymentMethod, none, caller, country, league, club, age, version,
    season, position, .forSale, none, purchaseDate, none, notes, image⟩,
    ?_, rfl, rfl⟩
  simp [cardsOf, ← h, logChange]

theorem updateCard_ok_cards (now : Time) (cardId : CardId)
    (name rarity : String) (purchasePrice discountPercent : ℚ)
    (paymentMethod : PaymentMethod) (country league club : String)
    (age : Nat) (version season : String) (position : Position)
    (purchaseDate : Option Time) (notes : String) (s s' : UserState)
    (h : updateCard true now cardId name rarity purchasePrice
      discountPercent paymentMethod country league club age version season
      position purchaseDate notes s = .ok s') :
    ∃ cs, s.cards = some cs ∧
      s'.cards = some (cs.map (updateCardUpdate cardId name rarity
        purchasePrice discountPercent paymentMethod country league club age
        version season position purchaseDate notes)) := by
  by_cases hv : verifyCardOwnership s cardId
  · cases hc : s.cards with
    | none => simp [updateCard, hv, hc] at h
    | some cs =>
        simp only [updateCard, hv, hc] at h
        simp at h
        exact ⟨cs, rfl, by simp [← h, logChange]⟩
  · simp [updateCard, hv] at h

theorem updateSalePrice_ok_cards (now : Time) (cardId : CardId)
    (newSalePrice : ℚ) (s s' : UserState)
    (h : updateSalePrice true now cardId newSalePrice s = .ok s') :
    ∃ cs, s.cards = some cs ∧
      s'.cards = some (cs.map (updateSalePriceUpdate cardId newSalePrice)) := by
  by_cases hv : verifyCardOwnership s cardId
  · cases hc : s.cards with
    | none => simp [updateSalePrice, hv, hc] at h
    | some cs =>
        simp only [updateSalePrice, hv, hc] at h
        cases hold : cs.foldl
            (fun acc card => if card.id = cardId then card.salePrice else acc)
            none with
        | none =>
            simp only [hold] at h
            simp at h
            exact ⟨cs, rfl, by simp [← h, logChange]⟩
        | some oldPrice =>
            simp only [hold] at h
            simp at h
            exact ⟨cs, rfl, by simp [← h, logChange]⟩
  · simp [updateSalePrice, hv] at h

theorem deleteCard_ok_cards (now : Time) (cardId : CardId)
    (s s' : UserState) (h : deleteCard true now cardId s = .ok s') :
    ∃ cs, s.cards = some cs ∧
      s'.cards = some (cs.filter (fun card => ¬ card.id = cardId)) := by
  by_cases hv : verifyCardOwnership s cardId
  · cases hc : s.cards with
    | none => simp [deleteCard, hv, hc] at h
    | some cs =>
        simp only [deleteCard, hv, hc] at h
        simp at h
        exact ⟨cs, rfl, by simp [← h, logChange]⟩
  · simp [deleteCard, hv] at h

theorem markCardAsSold_ok_cards (now : Time) (cardId : CardId)
    (salePrice : ℚ) (saleDate : Time) (s s' : UserState)
    (h : markCardAsSold true now cardId salePrice saleDate s = .ok s') :
    ∃ cs, s.cards = some cs ∧
      s'.cards = some (cs.map (markSoldUpdate cardId salePrice saleDate)) := by
  by_cases hv : verifyCardOwnership s cardId
  · cases hc : s.cards with
    | none => simp [markCardAsSold, hv, hc] at h
    | some cs =>
        by_cases hfound : cs.any (fun card => decide (card.id = cardId))
        · simp only [markCardAsSold, hv, hc, hfound] at h
          simp at h
          exact ⟨cs, rfl, by simp [← h, logChange]⟩
        · simp [markCardAsSold, hv, hc, hfound] at h
  · simp [markCardAsSold, hv] at h

theorem recordTradeTransaction_ok_cards (now : Time)
    (givenCardIds receivedCardIds : List CardId) (s s' : UserState)
    (h : recordTradeTransaction true now givenCardIds receivedCardIds s =
      .ok s') :
    ∃ cs egi, s.cards = some cs ∧
      s'.cards = some (cs.map (recordTradeUpdate egi receivedCardIds)) := by
  by_cases hall : givenCardIds.all (fun cardId => verifyCardOwnership s cardId)
  · cases hc : s.cards with
    | none => simp [recordTradeTransaction, hall, hc] at h
    | some cs =>
        simp only [recordTradeTransaction, hall, hc] at h
        simp only [not_true, if_false, ite_false] at h
        split at h
        · simp at h
        · refine ⟨cs, List.filter
            (fun id => decide (id ∈ List.map (fun card => card.id) cs))
            givenCardIds, rfl, ?_⟩
          rw [Except.ok.injEq] at h
          simp [← h, logChange]
  · simp [recordTradeTransaction, hall] at h

theorem revertTradeTransaction_ok_cards (now : Time) (cardId : CardId)
    (t : TradeTransaction) (s s' : UserState)
    (h : revertTradeTransaction true now cardId t s = .ok s') :
    ∃ cs, s.cards = some cs ∧
      s'.cards = some (cs.map (revertTradeUpdate cardId)) := by
  by_cases hv : verifyCardOwnership s cardId
  · cases hc : s.cards with
    | none => simp [revertTradeTransaction, hv, hc] at h
    | some cs =>
        cases hfind : cs.find? (fun card => decide (card.id = cardId)) with
        | none => simp [revertTradeTransaction, hv, hc, hfind] at h
        | some x =>
            simp only [revertTradeTransaction, hv, hc, hfind] at h
            simp at h
            exact ⟨cs, rfl, by simp [← h, logChange]⟩
  · simp [revertTradeTransaction, hv] at h

theorem backfillHistoryEntries_ok_cards (now : Time) (s s' : UserState)
    (h : backfillHistoryEntries true now s = .ok s') :
    s'.cards = s.cards := by
  by_cases hb : s.backfilled
  · simp [backfillHistoryEntries, hb] at h
    simp [← h]
  · cases hc : s.cards with
    | none =>
        simp [backfillHistoryEntries, hb, hc] at h
        simp [← h]
    | some cs =>
        simp only [backfillHistoryEntries, hb, hc] at h
        rw [backfillFold_eq] at h
        simp at h
        simp [← h, hc]

/-- Two cards of a collection with pairwise distinct ids that share an id
are the same card. -/
theorem eq_of_mem_of_id_eq (cs : List Card)
    (hnd : (cs.map (fun x => x.id)).Nodup) (c c' : Card) (hc : c ∈ cs)
    (hc' : c' ∈ cs) (hid : c'.id = c.id) : c' = c :=
  List.inj_on_of_nodup_map hnd hc' hc hid

/-- In a mapped collection with id-preserving per-card function, the card
found at the id of `c` is exactly `f c`. -/
theorem mem_map_id_eq (f : Card → Card) (hf : ∀ x, (f x).id = x.id)
    (cs : List Card) (hnd : (cs.map (fun x => x.id)).Nodup) (c c' : Card)
    (hc : c ∈ cs) (hc' : c' ∈ cs.map f) (hid : c'.id = c.id) : c' = f c := by
  rw [List.mem_map] at hc'
  obtain ⟨b, hb, rfl⟩ := hc'
  have hbid : b.id = c.id := by rw [← hf b]; exact hid
  have hbc : b = c := List.inj_on_of_nodup_map hnd hb hc hbid
  rw [hbc]

theorem map_update_eq (f : Card → Card) (hfid : ∀ x, (f x).id = x.id)
    (s s' : UserState) (cs : List Card) (hcseq : s.cards = some cs)
    (hcs' : s'.cards = some (cs.map f))
    (hnd : ((cardsOf s).map (fun x => x.id)).Nodup)
    (c c' : Card) (hc : c ∈ cardsOf s) (hc' : c' ∈ cardsOf s')
    (hid : c'.id = c.id) : c' = f c := by
  have h1 : cardsOf s = cs := by simp [cardsOf, hcseq]
  have h2 : cardsOf s' = cs.map f := by simp [cardsOf, hcs']
  exact mem_map_id_eq f hfid cs (h1 ▸ hnd) c c' (h1 ▸ hc) (h2 ▸ hc') hid

theorem markSoldUpdate_received (i : CardId) (p : ℚ) (d : Time) (b : Card) :
    (markSoldUpdate i p d b).transactionType = .tradedReceived →
      b.transactionType = .tradedReceived := by
  by_cases hid : b.id = i <;> simp [markSoldUpdate, hid]

theorem recordTradeUpdate_received (a r : List CardId) (b : Card) :
    (recordTradeUpdate a r b).transactionType = .tradedReceived →
      b.transactionType = .tradedReceived := by
  by_cases h1 : b.transactionType = .forSale
  · by_cases h2 : (a.find? (fun id => decide (id = b.id))).isSome <;>
      simp [recordTradeUpdate, h1, h2]
  · simp [recordTradeUpdate, h1]

theorem revertTradeUpdate_received (i : CardId) (b : Card) :
    (revertTradeUpdate i b).transactionType = .tradedReceived →
      b.transactionType = .tradedReceived := by
  by_cases h : b.id = i ∧ b.transactionType = .tradedGiven <;>
    simp [revertTradeUpdate, h]

theorem received_via_map (f : Card → Card) (hfid : ∀ x, (f x).id = x.id)
    (hfr : ∀ x, (f x).transactionType = .tradedReceived →
      x.transactionType = .tradedReceived)
    (s s' : UserState) (cs : List Card) (hcseq : s.cards = some cs)
    (hcs' : s'.cards = some (cs.map f)) (c' : Card)
    (hc' : c' ∈ cardsOf s')
    (htt : c'.transactionType = .tradedReceived) :
    ∃ c ∈ cardsOf s, c.id = c'.id ∧
      c.transactionType = .tradedReceived := by
  have h1 : cardsOf s = cs := by simp [cardsOf, hcseq]
  have h2 : cardsOf s' = cs.map f := by simp [cardsOf, hcs']
  rw [h2, List.mem_map] at hc'
  obtain ⟨b, hb, rfl⟩ := hc'
  exact ⟨b, h1 ▸ hb, (hfid b).symm, hfr b htt⟩

/-- Claim C4 (amended) -- over every single mutation step: a card in
state `tradedGiven` changes its lifecycle state only through
`revertTradeTransaction` (which returns it to `forSale`) or through
`markCardAsSold` (which moves it to `sold`); and no operation -- in
particular not `addCard` -- ever puts a card into `tradedReceived`: any
`tradedReceived` card after a step was already `tradedReceived` before
it. -/
theorem tradedGiven_exit_and_tradedReceived_entry :
    (∀ (auth : Bool) (now : Time) (op : Op) (s s' : UserState)
      (c c' : Card),
      ((cardsOf s).map (fun x => x.id)).Nodup →
      s.nextCardId ∉ (cardsOf s).map (fun x => x.id) →
      step auth now op s = .ok s' →
      c ∈ cardsOf s → c' ∈ cardsOf s' → c'.id = c.id →
      c.transactionType = .tradedGiven →
      c'.transactionType ≠ .tradedGiven →
      (∃ i t, op = .revertTradeTransaction i t ∧
        c'.transactionType = .forSale) ∨
      (∃ i p d, op = .markCardAsSold i p d ∧
        c'.transactionType = .sold)) ∧
    (∀ (auth : Bool) (now : Time) (op : Op) (s s' : UserState) (c' : Card),
      step auth now op s = .ok s' →
      c' ∈ cardsOf s' → c'.transactionType = .tradedReceived →
      ∃ c ∈ cardsOf s, c.id = c'.id ∧
        c.transactionType = .tradedReceived) := by
  constructor
  · intro auth now op s s' c c' hnd hnext hstep hc hc' hid hG hne
    cases auth with
    | false => exact absurd hstep (fun h => step_false_error now op s s' h)
    | true =>
    cases op with
    | addCard caller name rarity pp dp pm country league club age version
        season position pd notes image =>
        exfalso
        simp only [step] at hstep
        obtain ⟨nc, hcs, hncid, hnctt⟩ := addCard_ok_cards now caller name
          rarity pp dp pm country league club age version season position
          pd notes image s s' hstep
        rw [hcs, List.mem_append] at hc'
        rcases hc' with hmem | hmem
        · have hcc := eq_of_mem_of_id_eq _ hnd c c' hc hmem hid
          exact hne (by rw [hcc]; exact hG)
        · rw [List.mem_singleton] at hmem
          apply hnext
          rw [List.mem_map]
          refine ⟨c, hc, ?_⟩
          rw [← hid, hmem]
          exact hncid
    | updateCard cardId name rarity pp dp pm country league club age
        version season position pd notes =>
        exfalso
        simp only [step] at hstep
        obtain ⟨cs, hcseq, hcs'⟩ := updateCard_ok_cards now cardId name
          rarity pp dp pm country league club age version season position
          pd notes s s' hstep
        have hcc := map_update_eq _
          (updateCardUpdate_id cardId name rarity pp dp pm country league
            club age version season position pd notes)
          s s' cs hcseq hcs' hnd c c' hc hc' hid
        refine hne ?_
        rw [hcc, updateCardUpdate_tt]
        exact hG
    | deleteCard cardId =>
        exfalso
        simp only [step] at hstep
        obtain ⟨cs, hcseq, hcs'⟩ := deleteCard_ok_cards now cardId s s' hstep
        have h1 : cardsOf s = cs := by simp [cardsOf, hcseq]
        have h2 : c' ∈ cs := by
          have : c' ∈ cs.filter (fun card => ¬ card.id = cardId) := by
            have h3 : cardsOf s' =
                cs.filter (fun card => ¬ card.id = cardId) := by
              simp [cardsOf, hcs']
            rw [← h3]; exact hc'
          exact List.mem_of_mem_filter this
        have hcc := eq_of_mem_of_id_eq cs (h1 ▸ hnd) c c' (h1 ▸ hc) h2 hid
        exact hne (by rw [hcc]; exact hG)
    | updateSalePrice cardId newSalePrice =>
        exfalso
        simp only [step] at hstep
        obtain ⟨cs, hcseq, hcs'⟩ := updateSalePrice_ok_cards now cardId
          newSalePrice s s' hstep
        have hcc := map_update_eq _ (updateSalePriceUpdate_id cardId
          newSalePrice) s s' cs hcseq hcs' hnd c c' hc hc' hid
        refine hne ?_
        rw [hcc, updateSalePriceUpdate_tt]
        exact hG
    | markCardAsSold cardId salePrice saleDate =>
        simp only [step] at hstep
        obtain ⟨cs, hcseq, hcs'⟩ := markCardAsSold_ok_cards now cardId
          salePrice saleDate s s' hstep
        have hcc := map_update_eq _ (markSoldUpdate_id cardId salePrice
          saleDate) s s' cs hcseq hcs' hnd c c' hc hc' hid
        by_cases hcid : c.id = cardId
        · right
          exact ⟨cardId, salePrice, saleDate, rfl,
            by rw [hcc]; simp [markSoldUpdate, hcid]⟩
        · exact absurd (by rw [hcc]; simp [markSoldUpdate, hcid, hG]) hne
    | recordTradeTransaction given received =>
        exfalso
        simp only [step] at hstep
        obtain ⟨cs, egi, hcseq, hcs'⟩ := recordTradeTransaction_ok_cards
          now given received s s' hstep
        have hcc := map_update_eq _ (recordTradeUpdate_id egi received)
          s s' cs hcseq hcs' hnd c c' hc hc' hid
        have hunch : c' = c := by
          rw [hcc, recordTradeUpdate_of_not_forSale _ _ _ (by simp [hG])]
        exact hne (by rw [hunch]; exact hG)
    | revertTradeTransaction i t =>
        simp only [step] at hstep
        obtain ⟨cs, hcseq, hcs'⟩ := revertTradeTransaction_ok_cards now i t
          s s' hstep
        have hcc := map_update_eq _ (revertTradeUpdate_id i) s s' cs hcseq
          hcs' hnd c c' hc hc' hid
        by_cases hcid : c.id = i
        · left
          exact ⟨i, t, rfl, by rw [hcc]; simp [revertTradeUpdate, hcid, hG]⟩
        · refine absurd ?_ hne
          have hcond : ¬ (c.id = i ∧ c.transactionType = .tradedGiven) :=
            fun hand => hcid hand.1
          rw [hcc]
          simp [revertTradeUpdate, hcond]
          exact hG
    | backfillHistoryEntries =>
        exfalso
        simp only [step] at hstep
        have hsame := backfillHistoryEntries_ok_cards now s s' hstep
        have h2 : cardsOf s' = cardsOf s := by simp [cardsOf, hsame]
        have hcc := eq_of_mem_of_id_eq _ hnd c c' hc (h2 ▸ hc') hid
        exact hne (by rw [hcc]; exact hG)
  · intro auth now op s s' c' hstep hc' htt
    cases auth with
    | false => exact absurd hstep (fun h => step_false_error now op s s' h)
    | true =>
    cases op with
    | addCard caller name rarity pp dp pm country league club age version
        season position pd notes image =>
        simp only [step] at hstep
        obtain ⟨nc, hcs, hncid, hnctt⟩ := addCard_ok_cards now caller name
          rarity pp dp pm country league club age version season position
          pd notes image s s' hstep
        rw [hcs, List.mem_append] at hc'
        rcases hc' with hmem | hmem
        · exact ⟨c', hmem, rfl, htt⟩
        · rw [List.mem_singleton] at hmem
          rw [hmem, hnctt] at htt
          exact absurd htt (by decide)
    | updateCard cardId name rarity pp dp pm country league club age
        version season position pd notes =>
        simp only [step] at hstep
        obtain ⟨cs, hcseq, hcs'⟩ := updateCard_ok_cards now cardId name
          rarity pp dp pm country league club age version season position
          pd notes s s' hstep
        exact received_via_map _
          (updateCardUpdate_id cardId name rarity pp dp pm country league
            club age version season position pd notes)
          (fun x h => by rw [updateCardUpdate_tt] at h; exact h)
          s s' cs hcseq hcs' c' hc' htt
    | deleteCard cardId =>
        simp only [step] at hstep
        obtain ⟨cs, hcseq, hcs'⟩ := deleteCard_ok_cards now cardId s s' hstep
        have h1 : cardsOf s = cs := by simp [cardsOf, hcseq]
        have h2 : c' ∈ cs := by
          have h3 : cardsOf s' =
              cs.filter (fun card => ¬ card.id = cardId) := by
            simp [cardsOf, hcs']
          exact List.mem_of_mem_filter (h3 ▸ hc')
        exact ⟨c', h1 ▸ h2, rfl, htt⟩
    | updateSalePrice cardId newSalePrice =>
        simp only [step] at hstep
        obtain ⟨cs, hcseq, hcs'⟩ := updateSalePrice_ok_cards now cardId
          newSalePrice s s' hstep
        exact received_via_map _
          (updateSalePriceUpdate_id cardId newSalePrice)
          (fun x h => by rw [updateSalePriceUpdate_tt] at h; exact h)
          s s' cs hcseq hcs' c' hc' htt
    | markCardAsSold cardId salePrice saleDate =>
        simp only [step] at hstep
        obtain ⟨cs, hcseq, hcs'⟩ := markCardAsSold_ok_cards now cardId
          salePrice saleDate s s' hstep
        exact received_via_map _
          (markSoldUpdate_id cardId salePrice saleDate)
          (markSoldUpdate_received cardId salePrice saleDate)
          s s' cs hcseq hcs' c' hc' htt
    | recordTradeTransaction given received =>
        simp only [step] at hstep
        obtain ⟨cs, egi, hcseq, hcs'⟩ := recordTradeTransaction_ok_cards
          now given received s s' hstep
        exact received_via_map _ (recordTradeUpdate_id egi received)
          (recordTradeUpdate_received egi received)
          s s' cs hcseq hcs' c' hc' htt
    | revertTradeTransaction i t =>
        simp only [step] at hstep
        obtain ⟨cs, hcseq, hcs'⟩ := revertTradeTransaction_ok_cards now i t
          s s' hstep
        exact received_via_map _ (revertTradeUpdate_id i)
          (revertTradeUpdate_received i)
          s s' cs hcseq hcs' c' hc' htt
    | backfillHistoryEntries =>
        simp only [step] at hstep
        have hsame := backfillHistoryEntries_ok_cards now s s' hstep
        have h2 : cardsOf s' = cardsOf s := by simp [cardsOf, hsame]
        exact ⟨c', h2 ▸ hc', rfl, htt⟩

/-- Counterexample to claim C4 as stated: `markCardAsSold` -- not
`revertTradeTransaction` -- moves a `tradedGiven` card out of
`tradedGiven`, to `sold`. -/
theorem markCardAsSold_moves_tradedGiven_card :
    (okOf (markCardAsSold true 0 0 5 7
        ⟨some [baseCard 0 .tradedGiven], [], false, 1⟩)).map
      (fun s' => (cardsOf s').map (fun c => c.transactionType)) =
      some [.sold] := by rfl

/-- The one-card state the C4 witness starts from. -/
def c4State : UserState := ⟨some [baseCard 0 .tradedGiven], [], false, 1⟩

/-- The card of `c4State` after `markCardAsSold 0 5 7`. -/
def c4Card : Card :=
  { baseCard 0 .tradedGiven with
    transactionType := .sold
    salePrice := some 5
    saleDate := some 7 }

/-- The state after `markCardAsSold 0 5 7` on `c4State`. -/
def c4StateAfter : UserState :=
  ⟨some [c4Card], [⟨0, .markSold, [0], "Card 0 marked as sold for 5 at 7"⟩],
    false, 1⟩

/-- Witness for `tradedGiven_exit_and_tradedReceived_entry` (first part)
at the concrete step `markCardAsSold 0 5 7` on `c4State`. -/
theorem tradedGiven_exit_and_tradedReceived_entry_witness :
    (∃ i t, Op.markCardAsSold 0 5 7 = Op.revertTradeTransaction i t ∧
      c4Card.transactionType = .forSale) ∨
    (∃ i p d, Op.markCardAsSold 0 5 7 = Op.markCardAsSold i p d ∧
      c4Card.transactionType = .sold) :=
  tradedGiven_exit_and_tradedReceived_entry.1 true 0
    (Op.markCardAsSold 0 5 7) c4State c4StateAfter
    (baseCard 0 .tradedGiven) c4Card (by decide) (by decide) (by rfl)
    (by decide) (by decide) rfl rfl (by decide)

end CardPortfolio
